import Mathlib

/-!
Shallow embedding of `config/config-package.py` from the gocept/meta
repository, together with theorems settling the behavioural claims about
the script: the supported-version range calculation, the registry update,
the metadata flag resolution, the template copier, and the orchestration
tail (test run, metadata write, commit) with its working-directory
restoration.
-/

namespace ConfigPkg

/-- Embeds `MAX_PYTHON = (3, 9)`. -/
def MAX_PYTHON : Nat × Nat := (3, 9)

/-- The CLI argument record produced by `argparse` (the fields the
version calculation and flag resolution read). -/
structure Args where
  with_pypy : Bool
  support_legacy_python : Bool
  min_version : Nat × Nat
  no_push : Bool
deriving Repr, DecidableEq

/-- Embeds `get_supported_versions(args)`: the list comprehension
`[(3, minor) for minor in range(args.min_version[1], MAX_PYTHON[1] + 1)]`
followed by `versions.insert(0, (2, 7))` when `args.support_legacy_python`.
Python `range(a, b)` is `List.range' a (b - a)` (empty when `b ≤ a`). -/
def get_supported_versions (args : Args) : List (Nat × Nat) :=
  let versions :=
    (List.range' args.min_version.2 (MAX_PYTHON.2 + 1 - args.min_version.2)).map
      (fun minor => (3, minor))
  if args.support_legacy_python then (2, 7) :: versions else versions

/-- Embeds `get_tox_ini_versions(versions)`: joins
`f"\n    py{major}{minor},"` for each version pair. -/
def get_tox_ini_versions (versions : List (Nat × Nat)) : String :=
  String.join (versions.map
    (fun v => "\n    py" ++ toString v.1 ++ toString v.2 ++ ","))

/-- Embeds `get_test_matrix_versions(versions)`: joins
`f"\n        - [\"{major}.{minor}\", \"py{major}{minor}\"]"` per pair. -/
def get_test_matrix_versions (versions : List (Nat × Nat)) : String :=
  String.join (versions.map
    (fun v =>
      "\n        - [\"" ++ toString v.1 ++ "." ++ toString v.2 ++
        "\", \"py" ++ toString v.1 ++ toString v.2 ++ "\"]"))

/-- Embeds the `universal_wheel` computation in the `setup.cfg` write:
`universal_wheel = 0; if support_legacy_python: universal_wheel = 1`. -/
def universal_wheel (support_legacy_python : Bool) : Nat :=
  if support_legacy_python then 1 else 0

/-! ### Metadata store (`ConfigParser` section `meta`) -/

/-- A `ConfigParser` section: an insertion-ordered association list of
string keys to string values (all keys the script uses are lowercase, so
`optionxform` is the identity on them). -/
abbrev Options := List (String × String)

/-- Lookup of a key in a section. -/
def getOpt (opts : Options) (key : String) : Option String :=
  match opts with
  | [] => none
  | (k, v) :: rest => if k = key then some v else getOpt rest key

/-- Assignment `opts[key] = val`: replaces in place when the key exists,
appends at the end otherwise (insertion order is preserved, as in
`ConfigParser`). -/
def setOpt (opts : Options) (key val : String) : Options :=
  match opts with
  | [] => [(key, val)]
  | (k, v) :: rest =>
    if k = key then (k, val) :: rest else (k, v) :: setOpt rest key val

/-- Embeds Python `str.lower()` (ASCII case folding, character by
character). -/
def pyLower (s : String) : String := String.mk (s.data.map Char.toLower)

/-- Embeds `ConfigParser.BOOLEAN_STATES`. -/
def BOOLEAN_STATES : List (String × Bool) :=
  [("1", true), ("yes", true), ("true", true), ("on", true),
   ("0", false), ("no", false), ("off", false), ("false", false)]

/-- Embeds `SectionProxy.getboolean(key, fallback)`: the fallback when the
key is absent, otherwise `_convert_to_boolean` of the lowercased value;
`none` models the `ValueError` raised on an unrecognized value. -/
def getboolean (opts : Options) (key : String) (fallback : Bool) :
    Option Bool :=
  match getOpt opts key with
  | none => some fallback
  | some v => List.lookup (pyLower v) BOOLEAN_STATES

/-- Embeds Python `str` on a `bool` (`str(True) = "True"`). -/
def pyStr (b : Bool) : String := if b then "True" else "False"

/-- Embeds `dict.setdefault(key, val)`: returns the stored value when the
key is present (leaving the store untouched), otherwise inserts `val` and
returns it. -/
def setdefault (opts : Options) (key val : String) : Options × String :=
  match getOpt opts key with
  | some v => (opts, v)
  | none => (setOpt opts key val, val)

/-- Result of the flag-resolution block: the updated section plus the two
resolved local booleans the rest of the script uses. -/
structure MetaResolution where
  opts : Options
  with_pypy : Bool
  support_legacy_python : Bool
deriving Repr, DecidableEq

/-- Embeds lines 156–164 of the script: sets `template` and `commit-id`,
then resolves each boolean flag as
`meta_opts.getboolean(key, False) or args.flag` and stores its `str`.
The pypy flag is persisted under key `with-pypy`, the legacy flag under
key `support_legacy_python` (underscores, as written in the source).
`none` models a `ValueError` from `getboolean`. -/
def updateMetaOpts (opts0 : Options) (config_type commit_id : String)
    (args : Args) : Option MetaResolution := do
  let opts := setOpt opts0 "template" config_type
  let opts := setOpt opts "commit-id" commit_id
  let wp ← getboolean opts "with-pypy" false
  let with_pypy := wp || args.with_pypy
  let opts := setOpt opts "with-pypy" (pyStr with_pypy)
  let slp ← getboolean opts "support_legacy_python" false
  let support_legacy_python := slp || args.support_legacy_python
  let opts := setOpt opts "support_legacy_python" (pyStr support_legacy_python)
  some { opts := opts, with_pypy := with_pypy,
         support_legacy_python := support_legacy_python }

/-- The keys of a section, in storage order. -/
def optKeys (opts : Options) : List String := opts.map Prod.fst

/-- The `meta` section produced by a run on a repository with no existing
`.meta.cfg`: `meta_cfg['meta'] = {}`, then the flag-resolution block, then
the later `meta_opts.setdefault('fail-under', '0')` performed during the
`tox.ini` write. -/
def freshRunMetaOpts (config_type commit_id : String) (args : Args) :
    Option Options := do
  let r ← updateMetaOpts [] config_type commit_id args
  some (setdefault r.opts "fail-under" "0").1

/-! ### Registry (`packages.txt`)

File contents are modelled as `List Char`. `Char.ofNat 10` is the newline
character. -/

/-- Embeds Python `str.splitlines` for newline-separated content: the
accumulator holds the current (reversed) line; a trailing line without a
final newline is kept, a trailing newline produces no extra empty line. -/
def splitlinesAux : List Char → List Char → List (List Char)
  | [], acc => if acc = [] then [] else [acc.reverse]
  | c :: rest, acc =>
    if c = Char.ofNat 10 then acc.reverse :: splitlinesAux rest []
    else splitlinesAux rest (c :: acc)

/-- Embeds `content.splitlines()`. -/
def splitlines (s : List Char) : List (List Char) := splitlinesAux s []

/-- The notice printed when the repository is already registered:
`f'{path.name} is already configured for this config type, updating.'`. -/
def updatingMsg (name : List Char) : List Char :=
  name ++ " is already configured for this config type, updating.".data

/-- The notice printed when the repository is new:
`f'{path.name} is not yet configured for this config type, adding.'`. -/
def addingMsg (name : List Char) : List Char :=
  name ++ " is not yet configured for this config type, adding.".data

/-- Embeds lines 138–146 of the script: reads `packages.txt`, splits it
into lines; when `path.name` is among them the file is unchanged and the
"updating" notice printed, otherwise `f'{path.name}\n'` is appended in
mode `'a'` and the "adding" notice printed. Returns the new registry
content and the printed notice. -/
def updateRegistry (name registry : List Char) : List Char × List Char :=
  let known_packages := splitlines registry
  if name ∈ known_packages then (registry, updatingMsg name)
  else (registry ++ name ++ [Char.ofNat 10], addingMsg name)

/-- The registry content after one run (dropping the notice). -/
def regStep (name registry : List Char) : List Char :=
  (updateRegistry name registry).1

/-- Joins lines back into newline-terminated file content (the shape of a
well-formed registry file: one name per line). -/
def joinLines : List (List Char) → List Char
  | [] => []
  | l :: ls => l ++ Char.ofNat 10 :: joinLines ls

/-! ### Template copier (`copy_with_meta`, lines 68–77) -/

/-- Replaces every occurrence of `pat` in `s` by `rep`, scanning left to
right. -/
def replaceAll (s pat rep : List Char) : List Char :=
  match s with
  | [] => []
  | c :: rest =>
    if h : pat ≠ [] ∧ pat.isPrefixOf (c :: rest) then
      rep ++ replaceAll ((c :: rest).drop pat.length) pat rep
    else
      c :: replaceAll rest pat rep
termination_by s.length
decreasing_by
  · have hp : 0 < pat.length := List.length_pos.2 h.1
    simp only [List.length_drop, List.length_cons]
    omega
  · simp

/-- The `META_HINT` template literal of the script (the placeholder braces
appear verbatim, as in the source). -/
def META_HINT : List Char :=
  "# Generated from:\n# https://github.com/gocept/meta/tree/master/config/\x7bconfig_type\x7d\n".data

/-- Embeds `META_HINT.format(config_type=config_type)`. -/
def META_HINT_fmt (config_type : List Char) : List Char :=
  replaceAll META_HINT "\x7bconfig_type\x7d".data config_type

/-- Embeds `f_data.format(**kw)`: each named placeholder `\x7bkey\x7d` in
the source text is replaced by its value. -/
def pyFormat (kw : List (List Char × List Char)) (s : List Char) :
    List Char :=
  kw.foldl
    (fun acc p => replaceAll acc ("\x7b".data ++ p.1 ++ "\x7d".data) p.2) s

/-- Embeds `copy_with_meta(source, destination, config_type, **kw)`: the
destination is opened with mode `'w'` (its previous content `dest_old` is
never read), the formatted `META_HINT` is written first, then the source
content, formatted with `kw` when any keyword arguments were supplied.
Returns the new destination content. -/
def copy_with_meta (source_content dest_old config_type : List Char)
    (kw : List (List Char × List Char)) : List Char :=
  META_HINT_fmt config_type ++
    (if kw.isEmpty then source_content else pyFormat kw source_content)

/-! ### Orchestration tail (lines 235–279) -/

/-- One external command of the tail, for the model: its exit code and the
operator's answer should the override prompt be reached. -/
structure CallSpec where
  returncode : Int
  answer : String
deriving Repr, DecidableEq

/-- Embeds `call(*args)` (lines 54–65): on non-zero exit the operator is
prompted and any answer whose `lower()` is not `"y"` makes the process
exit with the command's return code (`some code`); otherwise execution
continues (`none`). -/
def callExits (c : CallSpec) : Option Int :=
  if c.returncode ≠ 0 then
    if pyLower c.answer ≠ "y" then some c.returncode else none
  else none

/-- The run-specific data of the orchestration tail. -/
structure TailConfig where
  path : String
  config_type : String
  rm_coveragerc : Bool
  add_coveragerc : Bool
  no_push : Bool
deriving Repr, DecidableEq

/-- The externally determined inputs of the orchestration tail: one
`CallSpec` per subprocess invocation, the file-existence checks, the
branch listing, and whether the `.meta.cfg` write raises an I/O error. -/
structure TailInputs where
  hasBootstrap : Bool
  hasTravis : Bool
  rmBootstrap : CallSpec
  rmTravis : CallSpec
  tox : CallSpec
  metaWriteRaises : Bool
  branchList : CallSpec
  branches : List String
  checkoutExisting : CallSpec
  checkoutNew : CallSpec
  gitAdd : CallSpec
  gitRmCov : CallSpec
  gitAddCov : CallSpec
  commit : CallSpec
  push : CallSpec
deriving Repr, DecidableEq

/-- How the tail terminates: normal completion, `sys.exit(code)` from a
declined override prompt, or an uncaught exception. -/
inductive Outcome
  | normal
  | exited (code : Int)
  | raised
deriving Repr, DecidableEq

/-- The process state the tail mutates: current working directory, whether
`.meta.cfg` has been written into the target repository, and whether the
`git commit` subprocess has been invoked. -/
structure OrchState where
  cwd : String
  metaWritten : Bool
  commitRun : Bool
deriving Repr, DecidableEq

/-- Embeds the `try:` block (lines 238–277) statement by statement:
`os.chdir(path)`; conditional `git rm` of `bootstrap.py` and
`.travis.yml`; the tox run; the `.meta.cfg` write (which may raise);
branch listing and checkout (reusing `config-with-<type>` when listed);
`git add`; conditional coveragerc staging; `git commit`; conditional
`git push`. Each `call` may exit the process via `callExits`. -/
def tailBody (cfg : TailConfig) (inp : TailInputs) (s0 : OrchState) :
    OrchState × Outcome :=
  let s1 := { s0 with cwd := cfg.path }
  match (if inp.hasBootstrap then callExits inp.rmBootstrap else none) with
  | some c => (s1, .exited c)
  | none =>
  match (if inp.hasTravis then callExits inp.rmTravis else none) with
  | some c => (s1, .exited c)
  | none =>
  match callExits inp.tox with
  | some c => (s1, .exited c)
  | none =>
  if inp.metaWriteRaises then (s1, .raised)
  else
  let s2 := { s1 with metaWritten := true }
  match callExits inp.branchList with
  | some c => (s2, .exited c)
  | none =>
  match callExits (if ("config-with-" ++ cfg.config_type) ∈ inp.branches
      then inp.checkoutExisting else inp.checkoutNew) with
  | some c => (s2, .exited c)
  | none =>
  match callExits inp.gitAdd with
  | some c => (s2, .exited c)
  | none =>
  match (if cfg.rm_coveragerc then callExits inp.gitRmCov else none) with
  | some c => (s2, .exited c)
  | none =>
  match (if cfg.add_coveragerc then callExits inp.gitAddCov else none) with
  | some c => (s2, .exited c)
  | none =>
  let s3 := { s2 with commitRun := true }
  match callExits inp.commit with
  | some c => (s3, .exited c)
  | none =>
  match (if ¬cfg.no_push then callExits inp.push else none) with
  | some c => (s3, .exited c)
  | none => (s3, .normal)

/-- Embeds lines 235–279 as a whole: `cwd = os.getcwd()` before the
`try:` block, then the block, then `finally: os.chdir(cwd)` — the
restoration runs on every way out of the block (normal return,
`SystemExit`, or any other exception). -/
def runTail (cfg : TailConfig) (inp : TailInputs) (s0 : OrchState) :
    OrchState × Outcome :=
  let r := tailBody cfg inp s0
  ({ r.1 with cwd := s0.cwd }, r.2)

/-! ### Top-level effect order (for the commit-id query) -/

/-- The script's top-level effects, abstracted to named actions. -/
inductive Act
  | registryUpdate
  | readMetaCfg
  | gitLogCommitId
  | resolveFlags
  | copyTemplates
  | writeSetupCfg
  | writeToxIni
  | writeTestsYml
  | getcwdSave
  | chdirTarget
  | gitRmLegacy
  | runToxSuite
  | writeMetaCfg
  | gitBranchCommitPush
  | chdirBack
deriving Repr, DecidableEq

/-- The effects of the script in source order (lines 138–279): the
registry update, the `.meta.cfg` read, the `git log -n1` subprocess for
`commit-id` (line 158), flag resolution, the template copies and config
writes, `os.getcwd()`, `os.chdir(path)` (line 238), the repository-local
subprocesses, and the final `os.chdir(cwd)`. -/
def scriptActs : List Act :=
  [.registryUpdate, .readMetaCfg, .gitLogCommitId, .resolveFlags,
   .copyTemplates, .writeSetupCfg, .writeToxIni, .writeTestsYml,
   .getcwdSave, .chdirTarget, .gitRmLegacy, .runToxSuite, .writeMetaCfg,
   .gitBranchCommitPush, .chdirBack]

/-- The working directory in effect after an action runs: only the two
`os.chdir` calls change it. -/
def actCwd (initCwd target cwd : String) : Act → String
  | .chdirTarget => target
  | .chdirBack => initCwd
  | _ => cwd

/-- Annotates each action with the working directory in effect when it
starts. -/
def annotateActs (initCwd target : String) :
    List Act → String → List (Act × String)
  | [], _ => []
  | a :: rest, cwd =>
    (a, cwd) :: annotateActs initCwd target rest (actCwd initCwd target cwd a)

/-- The script's effect trace: each top-level action paired with the
working directory it executes in, starting from `initCwd`. -/
def scriptTrace (initCwd target : String) : List (Act × String) :=
  annotateActs initCwd target scriptActs initCwd

/-! ### Splitlines lemmas -/

theorem splitlinesAux_line (l : List Char) (hl : Char.ofNat 10 ∉ l) :
    ∀ (rest acc : List Char),
      splitlinesAux (l ++ Char.ofNat 10 :: rest) acc
        = (acc.reverse ++ l) :: splitlinesAux rest [] := by
  induction l with
  | nil => intro rest acc; simp [splitlinesAux]
  | cons c cs ih =>
    intro rest acc
    have hc : c ≠ Char.ofNat 10 := fun h => hl (h ▸ List.mem_cons_self c cs)
    have hcs : Char.ofNat 10 ∉ cs := fun h => hl (List.mem_cons_of_mem c h)
    simp only [List.cons_append, splitlinesAux]
    rw [if_neg (by simpa using hc)]
    rw [List.append_eq, ih hcs rest (c :: acc)]
    simp

theorem splitlines_joinLines (ls : List (List Char))
    (h : ∀ l ∈ ls, Char.ofNat 10 ∉ l) : splitlines (joinLines ls) = ls := by
  induction ls with
  | nil => rfl
  | cons l rest ih =>
    have hl : Char.ofNat 10 ∉ l := h l (List.mem_cons_self l rest)
    have hrest : ∀ x ∈ rest, Char.ofNat 10 ∉ x :=
      fun x hx => h x (List.mem_cons_of_mem l hx)
    simp only [joinLines, splitlines] at ih ⊢
    rw [splitlinesAux_line l hl (joinLines rest) []]
    simp [ih hrest]

theorem joinLines_append_singleton (ls : List (List Char)) (x : List Char) :
    joinLines (ls ++ [x]) = joinLines ls ++ x ++ [Char.ofNat 10] := by
  induction ls with
  | nil => simp [joinLines]
  | cons l rest ih => simp [joinLines, ih]

theorem regStep_preserves (name : List Char) (hn : Char.ofNat 10 ∉ name)
    (ls : List (List Char)) (hls : ∀ l ∈ ls, Char.ofNat 10 ∉ l)
    (hcount : ls.count name ≤ 1) :
    ∃ ls2, regStep name (joinLines ls) = joinLines ls2 ∧
      (∀ l ∈ ls2, Char.ofNat 10 ∉ l) ∧ ls2.count name ≤ 1 := by
  by_cases hmem : name ∈ splitlines (joinLines ls)
  · exact ⟨ls, by simp [regStep, updateRegistry, hmem], hls, hcount⟩
  · refine ⟨ls ++ [name], ?_, ?_, ?_⟩
    · simp [regStep, updateRegistry, hmem, joinLines_append_singleton]
    · intro l hl
      rcases List.mem_append.1 hl with h | h
      · exact hls l h
      · simp only [List.mem_singleton] at h
        subst h; exact hn
    · rw [splitlines_joinLines ls hls] at hmem
      rw [List.count_append]
      have h0 : ls.count name = 0 := List.count_eq_zero.2 hmem
      simp [h0]

theorem registry_iterate (name : List Char) (hn : Char.ofNat 10 ∉ name)
    (ls : List (List Char)) (hls : ∀ l ∈ ls, Char.ofNat 10 ∉ l)
    (hcount : ls.count name ≤ 1) (n : Nat) :
    ∃ ls2, (regStep name)^[n] (joinLines ls) = joinLines ls2 ∧
      (∀ l ∈ ls2, Char.ofNat 10 ∉ l) ∧ ls2.count name ≤ 1 := by
  induction n with
  | zero => exact ⟨ls, rfl, hls, hcount⟩
  | succ k ih =>
    obtain ⟨ls2, heq, hls2, hc2⟩ := ih
    obtain ⟨ls3, heq3, hls3, hc3⟩ := regStep_preserves name hn ls2 hls2 hc2
    exact ⟨ls3, by rw [Function.iterate_succ_apply', heq, heq3], hls3, hc3⟩

/-! ### Helper lemmas on sections -/

theorem getOpt_setOpt_self (opts : Options) (k v : String) :
    getOpt (setOpt opts k v) k = some v := by
  induction opts with
  | nil => simp [setOpt, getOpt]
  | cons hd tl ih =>
    obtain ⟨k1, v1⟩ := hd
    by_cases h : k1 = k <;> simp [setOpt, getOpt, h, ih]

theorem getOpt_setOpt_ne (opts : Options) (k k2 v : String) (h : k ≠ k2) :
    getOpt (setOpt opts k v) k2 = getOpt opts k2 := by
  induction opts with
  | nil => simp [setOpt, getOpt, h]
  | cons hd tl ih =>
    obtain ⟨k1, v1⟩ := hd
    by_cases h1 : k1 = k <;> simp [setOpt, getOpt, h1, ih]
    · subst h1; simp [h]

theorem getboolean_persisted (opts : Options) (key : String) (b fb : Bool)
    (h : getOpt opts key = some (pyStr b)) :
    getboolean opts key fb = some b := by
  cases b <;> simp [getboolean, h, pyStr] <;> decide

theorem getboolean_absent (opts : Options) (key : String) (fb : Bool)
    (h : getOpt opts key = none) :
    getboolean opts key fb = some fb := by
  simp [getboolean, h]

/-- The flag-resolution block computed explicitly, given that both flags
were persisted by an earlier run as `str` of booleans `b` and `c`. -/
theorem updateMetaOpts_eq (opts0 : Options) (b c : Bool) (args : Args)
    (ct ci : String)
    (h1 : getOpt opts0 "with-pypy" = some (pyStr b))
    (h2 : getOpt opts0 "support_legacy_python" = some (pyStr c)) :
    updateMetaOpts opts0 ct ci args = some
      { opts := setOpt (setOpt (setOpt (setOpt opts0 "template" ct)
            "commit-id" ci) "with-pypy" (pyStr (b || args.with_pypy)))
            "support_legacy_python"
            (pyStr (c || args.support_legacy_python)),
        with_pypy := b || args.with_pypy,
        support_legacy_python := c || args.support_legacy_python } := by
  have g1 : getboolean (setOpt (setOpt opts0 "template" ct) "commit-id" ci)
      "with-pypy" false = some b := by
    apply getboolean_persisted
    rw [getOpt_setOpt_ne _ _ _ _ (by decide),
      getOpt_setOpt_ne _ _ _ _ (by decide)]
    exact h1
  have g2 : getboolean (setOpt (setOpt (setOpt opts0 "template" ct)
        "commit-id" ci) "with-pypy" (pyStr (b || args.with_pypy)))
      "support_legacy_python" false = some c := by
    apply getboolean_persisted
    rw [getOpt_setOpt_ne _ _ _ _ (by decide),
      getOpt_setOpt_ne _ _ _ _ (by decide),
      getOpt_setOpt_ne _ _ _ _ (by decide)]
    exact h2
  simp [updateMetaOpts, g1, g2]

/-! ### Claim theorems (first group) -/

/-- C1: for every minimum version `(3, m)` with `m ≤ 9`,
`get_supported_versions` returns exactly the pairs `(3, m) … (3, 9)` in
order (characterized by length and positionwise contents); for `m > 9` it
returns the empty list; and setting the legacy-support flag prepends
exactly the fixed entry `(2, 7)`, regardless of `m`. -/
theorem supported_versions_range (m : Nat) (pypy push : Bool) :
    ((get_supported_versions ⟨pypy, false, (3, m), push⟩).length = 10 - m) ∧
    (∀ i, i < 10 - m →
      (get_supported_versions ⟨pypy, false, (3, m), push⟩)[i]?
        = some (3, m + i)) ∧
    (9 < m → get_supported_versions ⟨pypy, false, (3, m), push⟩ = []) ∧
    (get_supported_versions ⟨pypy, true, (3, m), push⟩
      = (2, 7) :: get_supported_versions ⟨pypy, false, (3, m), push⟩) := by
  refine ⟨?_, ?_, ?_, ?_⟩
  · simp [get_supported_versions, MAX_PYTHON]
  · intro i hi
    simp only [get_supported_versions, MAX_PYTHON, if_neg Bool.false_ne_true,
      List.getElem?_map]
    rw [List.getElem?_range' _ _ (show i < 9 + 1 - m by omega)]
    simp [Nat.one_mul]
  · intro h
    have h0 : MAX_PYTHON.2 + 1 - m = 0 := by simp [MAX_PYTHON]; omega
    simp [get_supported_versions, h0]
  · simp [get_supported_versions]

/-- Witness for C1 at concrete inputs. -/
theorem supported_versions_range_witness :
    (get_supported_versions ⟨false, false, (3, 6), false⟩)[1]?
      = some (3, 7) ∧
    get_supported_versions ⟨false, false, (3, 10), false⟩ = [] :=
  ⟨(supported_versions_range 6 false false).2.1 1 (by decide),
   (supported_versions_range 10 false false).2.2.1 (by decide)⟩

/-- C4: each boolean flag is resolved as persisted value OR CLI value,
the resolution is written back under the same key, and consequently the
flags are monotonic across runs: a second run (with any CLI flags) sees
the first run's resolution OR-ed with its own flags, so a persisted
`true` never reverts. -/
theorem flags_or_monotonic (opts0 : Options) (b c : Bool) (args : Args)
    (ct ci : String)
    (h1 : getOpt opts0 "with-pypy" = some (pyStr b))
    (h2 : getOpt opts0 "support_legacy_python" = some (pyStr c)) :
    ∃ r : MetaResolution,
      updateMetaOpts opts0 ct ci args = some r ∧
      r.with_pypy = (b || args.with_pypy) ∧
      r.support_legacy_python = (c || args.support_legacy_python) ∧
      getOpt r.opts "with-pypy" = some (pyStr (b || args.with_pypy)) ∧
      getOpt r.opts "support_legacy_python"
        = some (pyStr (c || args.support_legacy_python)) ∧
      (∀ ct2 ci2 (args2 : Args), ∃ r2 : MetaResolution,
        updateMetaOpts r.opts ct2 ci2 args2 = some r2 ∧
        r2.with_pypy = (b || args.with_pypy || args2.with_pypy) ∧
        r2.support_legacy_python
          = (c || args.support_legacy_python
              || args2.support_legacy_python)) := by
  refine ⟨_, updateMetaOpts_eq opts0 b c args ct ci h1 h2, rfl, rfl,
    ?_, ?_, ?_⟩
  · rw [getOpt_setOpt_ne _ _ _ _ (by decide)]
    exact getOpt_setOpt_self _ _ _
  · exact getOpt_setOpt_self _ _ _
  · intro ct2 ci2 args2
    have h1a : getOpt (setOpt (setOpt (setOpt (setOpt opts0 "template" ct)
        "commit-id" ci) "with-pypy" (pyStr (b || args.with_pypy)))
        "support_legacy_python" (pyStr (c || args.support_legacy_python)))
        "with-pypy" = some (pyStr (b || args.with_pypy)) := by
      rw [getOpt_setOpt_ne _ _ _ _ (by decide)]
      exact getOpt_setOpt_self _ _ _
    have h2a : getOpt (setOpt (setOpt (setOpt (setOpt opts0 "template" ct)
        "commit-id" ci) "with-pypy" (pyStr (b || args.with_pypy)))
        "support_legacy_python" (pyStr (c || args.support_legacy_python)))
        "support_legacy_python"
        = some (pyStr (c || args.support_legacy_python)) :=
      getOpt_setOpt_self _ _ _
    exact ⟨_, updateMetaOpts_eq _ _ _ args2 ct2 ci2 h1a h2a, rfl, rfl⟩

/-- Witness for C4: a store persisted with `with-pypy = True` resolves to
`true` on a later run whose CLI omits both flags. -/
theorem flags_or_monotonic_witness :
    (updateMetaOpts [("with-pypy", "True"), ("support_legacy_python", "False")]
        "pure-python" "c0ffee" ⟨false, false, (3, 6), false⟩).map
      MetaResolution.with_pypy = some true := by
  obtain ⟨r, heq, hwp, -⟩ :=
    flags_or_monotonic
      [("with-pypy", "True"), ("support_legacy_python", "False")]
      true false ⟨false, false, (3, 6), false⟩ "pure-python" "c0ffee"
      (by rfl) (by rfl)
  rw [heq]
  simp [hwp]

/-- C5: `setdefault('fail-under', '0')` initializes the coverage threshold
to `"0"` only when the key is absent; a present value is returned and the
store left untouched. -/
theorem fail_under_default (opts : Options) (v : String) :
    (getOpt opts "fail-under" = none →
      setdefault opts "fail-under" "0" = (setOpt opts "fail-under" "0", "0") ∧
      getOpt (setdefault opts "fail-under" "0").1 "fail-under" = some "0") ∧
    (getOpt opts "fail-under" = some v →
      setdefault opts "fail-under" "0" = (opts, v)) := by
  constructor
  · intro h
    refine ⟨by simp [setdefault, h], ?_⟩
    simp [setdefault, h, getOpt_setOpt_self]
  · intro h
    simp [setdefault, h]

/-- Witness for C5 on both branches at concrete stores. -/
theorem fail_under_default_witness :
    setdefault [] "fail-under" "0" = ([("fail-under", "0")], "0") ∧
    setdefault [("fail-under", "7")] "fail-under" "0"
      = ([("fail-under", "7")], "7") := by
  constructor
  · have h := ((fail_under_default [] "0").1 (by rfl)).1
    simpa [setOpt] using h
  · exact (fail_under_default [("fail-under", "7")] "7").2 (by rfl)

/-- C3: when the repository name is already a line of the registry the
file is unchanged and the "updating" notice printed; when absent the name
plus a trailing newline is appended with the "adding" notice; and for a
well-formed registry (one newline-free name per line) in which the name
occurs at most once, it still occurs at most once after any number of
repeated runs. -/
theorem registry_no_duplicates (name : List Char) :
    (∀ registry, name ∈ splitlines registry →
      updateRegistry name registry = (registry, updatingMsg name)) ∧
    (∀ registry, name ∉ splitlines registry →
      updateRegistry name registry
        = (registry ++ name ++ [Char.ofNat 10], addingMsg name)) ∧
    (Char.ofNat 10 ∉ name →
      ∀ ls : List (List Char), (∀ l ∈ ls, Char.ofNat 10 ∉ l) →
        ls.count name ≤ 1 →
        ∀ n,
          (splitlines ((regStep name)^[n] (joinLines ls))).count name
            ≤ 1) := by
  refine ⟨?_, ?_, ?_⟩
  · intro registry hmem
    simp [updateRegistry, hmem]
  · intro registry hmem
    simp [updateRegistry, hmem]
  · intro hn ls hls hcount n
    obtain ⟨ls2, heq, hls2, hc2⟩ := registry_iterate name hn ls hls hcount n
    rw [heq, splitlines_joinLines ls2 hls2]
    exact hc2

/-- Witness for C3: an already-registered name leaves the registry
unchanged, and three repeated runs starting from a one-line registry leave
at most one occurrence. -/
theorem registry_no_duplicates_witness :
    updateRegistry "foo".data "foo\n".data
      = ("foo\n".data, updatingMsg "foo".data) ∧
    (splitlines ((regStep "foo".data)^[3] (joinLines ["bar".data]))).count
      "foo".data ≤ 1 :=
  ⟨(registry_no_duplicates "foo".data).1 "foo\n".data (by decide),
   (registry_no_duplicates "foo".data).2.2 (by decide) ["bar".data]
     (by decide) (by decide) 3⟩

/-- C8 counterexample: on a fresh run the persisted `meta` section keys
are `template`, `commit-id`, `with-pypy`, `support_legacy_python`,
`fail-under`; the hyphenated key `support-legacy-python` claimed by the
spec is not among them. -/
theorem meta_keys_counterexample :
    (freshRunMetaOpts "pure-python" "deadbeef"
        ⟨false, false, (3, 6), false⟩).map optKeys
      = some ["template", "commit-id", "with-pypy",
          "support_legacy_python", "fail-under"] ∧
    (freshRunMetaOpts "pure-python" "deadbeef"
        ⟨false, false, (3, 6), false⟩).map
      (fun o => decide ("support-legacy-python" ∈ optKeys o))
      = some false := by
  decide

/-- C8 (amended): on every fresh run the `meta` section keys are exactly
`template`, `commit-id`, `with-pypy`, `support_legacy_python` (with
underscores), and `fail-under`, in that order. -/
theorem meta_keys_fresh (ct ci : String) (args : Args) :
    (freshRunMetaOpts ct ci args).map optKeys
      = some ["template", "commit-id", "with-pypy",
          "support_legacy_python", "fail-under"] := by
  simp [freshRunMetaOpts, updateMetaOpts, setOpt, getOpt, getboolean,
    setdefault, optKeys]

/-! ### Copier, fresh-run, orchestration and trace theorems -/

theorem META_HINT_fmt_eq (ct : List Char) :
    META_HINT_fmt ct =
      "# Generated from:\n# https://github.com/gocept/meta/tree/master/config/".data
        ++ ct ++ [Char.ofNat 10] := by
  simp [META_HINT_fmt, META_HINT, replaceAll]

/-- C6: for every source content and substitution set, the copier fully
overwrites the destination (the old destination content is irrelevant)
with content whose first two lines are the fixed provenance lines, the
second ending in the template-type label, followed by the source content
with placeholders substituted when any were supplied and verbatim
otherwise. -/
theorem copy_with_meta_spec (src old ct : List Char)
    (kw : List (List Char × List Char)) (hct : Char.ofNat 10 ∉ ct) :
    (splitlines (copy_with_meta src old ct kw)).take 2
      = ["# Generated from:".data,
         "# https://github.com/gocept/meta/tree/master/config/".data ++ ct] ∧
    copy_with_meta src old ct kw
      = META_HINT_fmt ct ++ (if kw.isEmpty then src else pyFormat kw src) ∧
    (∀ old2, copy_with_meta src old2 ct kw = copy_with_meta src old ct kw) := by
  refine ⟨?_, rfl, fun old2 => rfl⟩
  have hA : Char.ofNat 10 ∉ ("# Generated from:".data : List Char) := by
    decide
  have hB : Char.ofNat 10 ∉
      ("# https://github.com/gocept/meta/tree/master/config/".data ++ ct) := by
    intro h
    rcases List.mem_append.1 h with h | h
    · exact absurd h (by decide)
    · exact hct h
  have hsplit :
      ("# Generated from:\n# https://github.com/gocept/meta/tree/master/config/".data : List Char)
        = "# Generated from:".data ++ Char.ofNat 10 ::
            "# https://github.com/gocept/meta/tree/master/config/".data := by
    decide
  have hmain : copy_with_meta src old ct kw
      = "# Generated from:".data ++ Char.ofNat 10 ::
        (("# https://github.com/gocept/meta/tree/master/config/".data ++ ct)
          ++ Char.ofNat 10 :: (if kw.isEmpty then src else pyFormat kw src)) := by
    rw [copy_with_meta, META_HINT_fmt_eq, hsplit]
    simp [List.append_assoc]
  rw [hmain, splitlines, splitlinesAux_line _ hA, splitlinesAux_line _ hB]
  simp

/-- Witness for C6 at a concrete source file and template type. -/
theorem copy_with_meta_spec_witness :
    (splitlines (copy_with_meta "hello %s\n".data "OLD".data
        "pure-python".data [])).take 2
      = ["# Generated from:".data,
         "# https://github.com/gocept/meta/tree/master/config/".data
           ++ "pure-python".data] :=
  (copy_with_meta_spec "hello %s\n".data "OLD".data "pure-python".data []
    (by decide)).1

/-- The flag-resolution block on a fresh (empty) `meta` section: both
`getboolean` calls fall back to `False`, so each flag resolves to its CLI
value. -/
theorem updateMetaOpts_fresh (ct ci : String) (args : Args) :
    updateMetaOpts [] ct ci args = some
      { opts := [("template", ct), ("commit-id", ci),
                 ("with-pypy", pyStr args.with_pypy),
                 ("support_legacy_python", pyStr args.support_legacy_python)],
        with_pypy := args.with_pypy,
        support_legacy_python := args.support_legacy_python } := by
  simp [updateMetaOpts, setOpt, getOpt, getboolean]

/-- C7: `universal_wheel` is `1` exactly when the resolved legacy-support
setting is true and `0` exactly when it is false; a run with `--with-py27`
on a fresh store resolves to legacy support, yielding `universal_wheel = 1`
and `(2, 7)` as the first supported version; a fresh run with minimum
version `(3, 6)` and no flags yields `universal_wheel = 0` and the
`py36`–`py39` environment list. -/
theorem universal_wheel_legacy (ct ci : String) :
    (∀ b : Bool, (universal_wheel b = 1 ↔ b = true) ∧
      (universal_wheel b = 0 ↔ b = false)) ∧
    (∀ args : Args, args.support_legacy_python = true →
      ∃ r : MetaResolution, updateMetaOpts [] ct ci args = some r ∧
        r.support_legacy_python = true ∧
        universal_wheel r.support_legacy_python = 1 ∧
        (get_supported_versions args).head? = some (2, 7)) ∧
    (∃ r : MetaResolution,
      updateMetaOpts [] ct ci ⟨false, false, (3, 6), false⟩ = some r ∧
      universal_wheel r.support_legacy_python = 0 ∧
      get_supported_versions ⟨false, false, (3, 6), false⟩
        = [(3, 6), (3, 7), (3, 8), (3, 9)] ∧
      get_tox_ini_versions
          (get_supported_versions ⟨false, false, (3, 6), false⟩)
        = "\n    py36,\n    py37,\n    py38,\n    py39,") := by
  refine ⟨?_, ?_, ?_⟩
  · intro b
    cases b <;> simp [universal_wheel]
  · intro args h
    refine ⟨_, updateMetaOpts_fresh ct ci args, h,
      by simp [universal_wheel, h], ?_⟩
    simp [get_supported_versions, h]
  · exact ⟨_, updateMetaOpts_fresh ct ci ⟨false, false, (3, 6), false⟩,
      by simp [universal_wheel], by decide, by decide⟩

/-- Witness for C7: `--with-py27` on a fresh store puts `(2, 7)` first. -/
theorem universal_wheel_legacy_witness :
    (get_supported_versions ⟨false, true, (3, 6), false⟩).head?
      = some (2, 7) := by
  obtain ⟨r, -, -, -, h⟩ :=
    (universal_wheel_legacy "pure-python" "c0ffee").2.1
      ⟨false, true, (3, 6), false⟩ rfl
  exact h

/-- C2: the metadata file is written only if the tox validation call did
not exit the process; and when the tox subprocess returns non-zero, the
operator declines the override, and the earlier conditional removals did
not already exit, the tail exits with the runner's code, writes no
metadata file, and never invokes `git commit`. -/
theorem meta_write_gated (cfg : TailConfig) (inp : TailInputs)
    (s0 : OrchState) (h1 : s0.metaWritten = false)
    (h2 : s0.commitRun = false) :
    ((runTail cfg inp s0).1.metaWritten = true → callExits inp.tox = none) ∧
    ((if inp.hasBootstrap then callExits inp.rmBootstrap else none) = none →
      (if inp.hasTravis then callExits inp.rmTravis else none) = none →
      inp.tox.returncode ≠ 0 → pyLower inp.tox.answer ≠ "y" →
      runTail cfg inp s0
        = ({ cwd := s0.cwd, metaWritten := false, commitRun := false },
           Outcome.exited inp.tox.returncode)) := by
  constructor
  · intro hw
    cases hgate : callExits inp.tox with
    | none => rfl
    | some c =>
      exfalso
      simp only [runTail, tailBody] at hw
      cases hb : (if inp.hasBootstrap then callExits inp.rmBootstrap else none) with
      | some c2 => simp [hb, h1] at hw
      | none =>
        cases ht : (if inp.hasTravis then callExits inp.rmTravis else none) with
        | some c2 => simp [hb, ht, h1] at hw
        | none => simp [hb, ht, hgate, h1] at hw
  · intro hb ht hrc hans
    have hgate : callExits inp.tox = some inp.tox.returncode := by
      simp [callExits, hrc, hans]
    simp only [runTail, tailBody, hb, ht, hgate]
    simp [h1, h2]

/-- Witness for C2: tox exits with code 2, the operator answers `n`, and
the tail reports exit code 2 with no metadata write and no commit. -/
theorem meta_write_gated_witness :
    runTail
      ⟨"/repo", "pure-python", false, false, false⟩
      ⟨false, false, ⟨0, ""⟩, ⟨0, ""⟩, ⟨2, "n"⟩, false, ⟨0, ""⟩, [],
       ⟨0, ""⟩, ⟨0, ""⟩, ⟨0, ""⟩, ⟨0, ""⟩, ⟨0, ""⟩, ⟨0, ""⟩, ⟨0, ""⟩⟩
      ⟨"/home/me", false, false⟩
      = (⟨"/home/me", false, false⟩, Outcome.exited 2) := by
  have h := (meta_write_gated
    ⟨"/repo", "pure-python", false, false, false⟩
    ⟨false, false, ⟨0, ""⟩, ⟨0, ""⟩, ⟨2, "n"⟩, false, ⟨0, ""⟩, [],
     ⟨0, ""⟩, ⟨0, ""⟩, ⟨0, ""⟩, ⟨0, ""⟩, ⟨0, ""⟩, ⟨0, ""⟩, ⟨0, ""⟩⟩
    ⟨"/home/me", false, false⟩ rfl rfl).2
    (by decide) (by decide) (by decide) (by decide)
  simpa using h

/-- C9: on every exit path of the orchestration tail — normal completion,
a `sys.exit` from a declined override prompt, or an exception raised after
entering the target repository — the final working directory equals the
directory saved before the `chdir`; inside the body the process really is
in the target directory, and the restoration does not alter the outcome. -/
theorem cwd_restored_all_paths (cfg : TailConfig) (inp : TailInputs)
    (s0 : OrchState) :
    (runTail cfg inp s0).1.cwd = s0.cwd ∧
    (tailBody cfg inp s0).1.cwd = cfg.path ∧
    (runTail cfg inp s0).2 = (tailBody cfg inp s0).2 := by
  refine ⟨rfl, ?_, rfl⟩
  simp only [tailBody]
  repeat first | rfl | split

/-- C10: in the script's effect trace the `git log -n1` subprocess that
produces `commit-id` is the third top-level action, executing in the
original working directory; it occurs exactly once and strictly before
`os.chdir(path)`; and the string it returns is exactly the value stored
under the `commit-id` key. -/
theorem commit_id_before_chdir (initCwd target ct ci : String)
    (args : Args) :
    (scriptTrace initCwd target).get? 2
      = some (Act.gitLogCommitId, initCwd) ∧
    scriptActs.count Act.gitLogCommitId = 1 ∧
    scriptActs.indexOf Act.gitLogCommitId
      < scriptActs.indexOf Act.chdirTarget ∧
    (freshRunMetaOpts ct ci args).bind (fun o => getOpt o "commit-id")
      = some ci := by
  refine ⟨rfl, by decide, by decide, ?_⟩
  simp [freshRunMetaOpts, updateMetaOpts, setOpt, getOpt, getboolean,
    setdefault]

end ConfigPkg
